import Mathlib

/-!
Verification development for the Nair8 language core: a shallow embedding of
the parser (src/parser.rs), the bytecode generator (src/generator.rs) and the
stack virtual machine (src/runtime.rs), together with theorems settling the
frozen claims about them.

Modelling conventions:
* Rust `f64` numbers are modelled as `ℚ`; the only number-level observation
  the core makes is `fract() == 0.0`, modelled as `q.den = 1`, and literal
  arithmetic, modelled by the exact rational operations.
* Rust `HashMap<String, _>` is modelled as an association list with
  insert-or-overwrite semantics (`aInsert`) and first-match lookup
  (`aLookup`); only insert and get are used by the source.
* The cursor-based recursive-descent parser is modelled as functions from the
  remaining token-type suffix to `Except` of the parsed node and the rest of
  the suffix; the parser only ever reads `token.token_type`.
* Recursion that is a `while`/`loop` in Rust, or recursion through the
  cursor, is given an explicit fuel argument so every definition is
  structurally recursive and kernel-evaluable.  Fuel exhaustion returns an
  error that the Rust code (which would loop or recurse instead) never
  produces; all theorems use fuel large enough that it is never reached.
-/

/-- Token kinds, from `TokenType` in src/tokenizer.rs, restricted to the
constructors that the embedded parser functions inspect.  Constructors absent
here fall into the same default match arms in Rust as they do in this
embedding, so no behaviour relevant to the claims is lost. -/
inductive TokenType where
  | kwAs
  | kwIs
  | kwOf
  | kwNew
  | kwWith
  | kwAwait
  | kwShow
  | includes
  | number (n : ℚ)
  | string (s : String)
  | boolean (b : Bool)
  | null
  | colon
  | comma
  | dot
  | openBracket
  | closeBracket
  | openParen
  | closeParen
  | plus
  | minus
  | multiply
  | divide
  | identifier (name : String)
  | eof
  | newLine
  | leftBrace
  | rightBrace
  | quote
  | stringPart (s : String)
  | typeWhole
  | typeDecimal
  | typeText
  | typeLogic
  | typeNothing
  | typeList
  | typeMapping
  | typePromise
  | typeAny
  | typeNumber
  | typeError
deriving DecidableEq

/-- Runtime values, from `Value` in src/generator.rs. -/
inductive Value where
  | number (n : ℚ)
  | string (s : String)
  | boolean (b : Bool)
  | null
  | object (className : String)
deriving DecidableEq

/-- AST nodes, from `Node` in src/parser.rs, restricted to the constructors
produced by the reachable parser productions or consumed by the generator.
`var` is Rust `Node::Variable`, `callE` is `Node::Call`, `newE` is
`Node::New`, `typeAnn` is `Node::TypeAnnotation`, `stringInterp` is
`Node::StringInterpolation`, `mappingLit` is `Node::MappingLiteral`. -/
inductive Node where
  | variableDecl (name : String) (tyAnn : Option Node) (initializer : Option Node)
  | block (stmts : List Node)
  | expressionStmt (e : Node)
  | whenStmt (condition : Node) (thenBranch : Node) (elseBranch : Option Node)
  | loopStmt (condition : Node) (body : Node)
  | showStmt (e : Node)
  | binary (left : Node) (operator : TokenType) (right : Node)
  | callE (callee : Node) (args : List Node)
  | get (object : Node) (name : String)
  | literal (v : Value)
  | var (name : String)
  | assignment (name : String) (value : Node)
  | newE (className : String) (args : List Node)
  | typeAnn (name : String)
  | listType (elementType : Node)
  | mappingType (keyType : Node) (valueType : Node)
  | stringInterp (parts : List Node)
  | promiseType (valueType : Node)
  | awaitExpr (value : Node)
  | mappingLit (entries : List (String × Option Node × Node))

/-- Parser cursor model: `peek` on the remaining token suffix
(`Parser::peek`); an empty suffix behaves like the end-of-stream token. -/
def peekT (ts : List TokenType) : TokenType := ts.headD .eof

/-- Parser::is_at_end — the current token is EOF. -/
def isAtEndT (ts : List TokenType) : Bool :=
  match peekT ts with
  | .eof => true
  | _ => false

/-- Parser::advance — move the cursor unless at end. -/
def advanceT (ts : List TokenType) : List TokenType :=
  if isAtEndT ts then ts else ts.tail

/-- Parser::check — token-type comparison, false at end of stream. -/
def checkT (ts : List TokenType) (ty : TokenType) : Bool :=
  if isAtEndT ts then false else peekT ts == ty

/-- Parser::match_token — consume the token if any of the alternatives
matches; returns whether it matched together with the new suffix. -/
def matchT (ts : List TokenType) (tys : List TokenType) : Bool × List TokenType :=
  if tys.any (checkT ts) then (true, advanceT ts) else (false, ts)

/-- Parser::consume — require a token type or fail with the given message. -/
def consumeT (ts : List TokenType) (ty : TokenType) (msg : String) :
    Except String (List TokenType) :=
  if checkT ts ty then .ok (advanceT ts) else .error msg

/-- Parser::consume_identifier. -/
def consumeIdentT (ts : List TokenType) (msg : String) :
    Except String (String × List TokenType) :=
  match peekT ts with
  | .identifier name => .ok (name, advanceT ts)
  | _ => .error msg

/-- Parser::consume_string_part. -/
def consumeStringPartT (ts : List TokenType) :
    Except String (String × List TokenType) :=
  match peekT ts with
  | .stringPart s => .ok (s, advanceT ts)
  | _ => .error "Expected string part"

/-- Parser::type_annotation, fuel-recursive for the `Mapping of T`,
`List[T]` and `Promise[T]` forms. -/
def pTypeAnn : Nat → List TokenType → Except String (Node × List TokenType)
  | 0, _ => .error "out of fuel"
  | fuel + 1, ts =>
    match peekT ts with
    | .typeMapping =>
      let ts := advanceT ts
      let m := matchT ts [.kwOf]
      if m.1 then do
        let (vt, ts) ← pTypeAnn fuel m.2
        .ok (.mappingType (.typeAnn "Text") vt, ts)
      else
        .ok (.mappingType (.typeAnn "Text") (.typeAnn "Any"), m.2)
    | .typeText => .ok (.typeAnn "Text", advanceT ts)
    | .typeWhole => .ok (.typeAnn "Whole", advanceT ts)
    | .typeDecimal => .ok (.typeAnn "Decimal", advanceT ts)
    | .typeLogic => .ok (.typeAnn "Logic", advanceT ts)
    | .typeNothing => .ok (.typeAnn "Nothing", advanceT ts)
    | .typeList =>
      let ts := advanceT ts
      let m := matchT ts [.openBracket]
      if m.1 then do
        let (et, ts) ← pTypeAnn fuel m.2
        let ts ← consumeT ts .closeBracket "Expected \x27]\x27 after type parameter"
        .ok (.listType et, ts)
      else
        .ok (.typeAnn "List", m.2)
    | .typePromise =>
      let ts := advanceT ts
      let m := matchT ts [.openBracket]
      if m.1 then do
        let (vt, ts) ← pTypeAnn fuel m.2
        let ts ← consumeT ts .closeBracket "Expected \x27]\x27 after type parameter"
        .ok (.promiseType vt, ts)
      else
        .ok (.typeAnn "Promise", m.2)
    | .typeAny => .ok (.typeAnn "Any", advanceT ts)
    | .typeNumber => .ok (.typeAnn "Number", advanceT ts)
    | .typeError => .ok (.typeAnn "Error", advanceT ts)
    | _ => .error "Expected type name"

/-- The opening brace character. -/
def lbrace : Char := Char.ofNat 123

/-- The closing brace character. -/
def rbrace : Char := Char.ofNat 125

/-- Inner loop of Parser::string_literal: collect the characters of a
`name-in-braces` segment up to and including the closing brace (the name and
the unconsumed remainder are returned; with no closing brace the remainder is
consumed entirely, as in the Rust loop). -/
def takeVar : List Char → String × List Char
  | [] => ("", [])
  | c :: rest =>
    if c = rbrace then ("", rest)
    else
      let p := takeVar rest
      (String.singleton c ++ p.1, p.2)

/-- Main loop of Parser::string_literal: split interpolated string contents
into alternating literal-text and variable parts.  Fuel bounds the recursion
through `takeVar` remainders; `chars.length + 1` always suffices. -/
def splitGo : Nat → List Char → String → List Node
  | 0, _, cur => if cur = "" then [] else [.literal (.string cur)]
  | _ + 1, [], cur => if cur = "" then [] else [.literal (.string cur)]
  | fuel + 1, c :: rest, cur =>
    if c = lbrace then
      (if cur = "" then [] else [Node.literal (.string cur)]) ++
        (let p := takeVar rest
         Node.var p.1 :: splitGo fuel p.2 "")
    else
      splitGo fuel rest (cur.push c)

/-- Parser::string_literal applied to the contents of a String token: if the
contents mention both braces the token becomes a string-interpolation node,
otherwise a plain string literal. -/
def stringLiteralNode (s : String) : Node :=
  if s.toList.contains lbrace && s.toList.contains rbrace then
    .stringInterp (splitGo (s.toList.length + 1) s.toList "")
  else
    .literal (.string s)

/-- Loop of the `Quote` branch of Parser::expression: collect interpolation
parts until a closing quote or end of stream.  `pe` is the expression parser
at the enclosing fuel. -/
def quoteLoop (pe : List TokenType → Except String (Node × List TokenType)) :
    Nat → List TokenType → Except String (List Node × List TokenType)
  | 0, _ => .error "out of fuel"
  | fuel + 1, ts =>
    if checkT ts .quote || isAtEndT ts then .ok ([], ts)
    else
      let m := matchT ts [.leftBrace]
      if m.1 then do
        let (e, ts) ← pe m.2
        let ts ← consumeT ts .rightBrace "Expected \x27\x7d\x27 after expression"
        let (ps, ts) ← quoteLoop pe fuel ts
        .ok (e :: ps, ts)
      else do
        let (txt, ts) ← consumeStringPartT m.2
        let (ps, ts) ← quoteLoop pe fuel ts
        .ok (Node.literal (.string txt) :: ps, ts)

/-- Entry loop shared by the `TypeMapping` branch of Parser::expression and
Parser::mapping_initializer: parse `name [as Type] is value` entries
separated by commas, tolerating newlines after each comma. -/
def entriesLoop (pe : List TokenType → Except String (Node × List TokenType)) :
    Nat → List TokenType →
    Except String (List (String × Option Node × Node) × List TokenType)
  | 0, _ => .error "out of fuel"
  | fuel + 1, ts => do
    let (pname, ts) ← consumeIdentT ts "Expected parameter name"
    let mAs := matchT ts [.kwAs]
    let step ←
      if mAs.1 then do
        let (pty, ts) ← pTypeAnn (fuel + 1) mAs.2
        let ts ← consumeT ts .kwIs "Expected \x27is\x27 after type"
        let (v, ts) ← pe ts
        pure ((pname, some pty, v), ts)
      else
        let mIs := matchT ts [.kwIs]
        if mIs.1 then do
          let (v, ts) ← pe mIs.2
          pure ((pname, (none : Option Node), v), ts)
        else
          .error "Expected \x27as\x27 or \x27is\x27 after parameter name"
    let (entry, ts) := step
    let mC := matchT ts [.comma]
    if mC.1 then
      let ts := mC.2.dropWhile (fun t => t == TokenType.newLine)
      let more ← entriesLoop pe fuel ts
      .ok (entry :: more.1, more.2)
    else
      .ok ([entry], ts)

/-- Argument loop of Parser::argument_list. -/
def argLoop (pe : List TokenType → Except String (Node × List TokenType)) :
    Nat → List TokenType → Except String (List Node × List TokenType)
  | 0, _ => .error "out of fuel"
  | fuel + 1, ts => do
    let (e, ts) ← pe ts
    let mC := matchT ts [.comma]
    if mC.1 then do
      let (es, ts) ← argLoop pe fuel mC.2
      .ok (e :: es, ts)
    else
      .ok ([e], ts)

/-- Parser::argument_list. -/
def pArgList (pe : List TokenType → Except String (Node × List TokenType))
    (fuel : Nat) (ts : List TokenType) :
    Except String (List Node × List TokenType) :=
  if !checkT ts .closeParen && !isAtEndT ts then argLoop pe fuel ts
  else .ok ([], ts)

/-- Parser::new_expression.  Note the faithful quirk: the caller
(`expression`) never consumed the `new` token, so `consume_identifier` here
always sees `new` and fails. -/
def pNewExpr (pe : List TokenType → Except String (Node × List TokenType))
    (fuel : Nat) (ts : List TokenType) :
    Except String (Node × List TokenType) := do
  let (cn, ts) ← consumeIdentT ts "Expected class name after \x27new\x27"
  let mW := matchT ts [.kwWith]
  if mW.1 then do
    let (args, ts) ← pArgList pe fuel mW.2
    .ok (.newE cn args, ts)
  else
    .ok (.newE cn [], ts)

/-- Parser::expression — the flat, token-directed expression parser actually
called by the reachable productions (the precedence ladder `or`/`and`/… in
the source is never invoked by `parse`). -/
def pExpression : Nat → List TokenType → Except String (Node × List TokenType)
  | 0, _ => .error "out of fuel"
  | fuel + 1, ts =>
    match peekT ts with
    | .identifier _ => do
      let (name, ts) ← consumeIdentT ts "Expected identifier"
      .ok (.var name, ts)
    | .string s => .ok (stringLiteralNode s, advanceT ts)
    | .number n => .ok (.literal (.number n), advanceT ts)
    | .boolean b => .ok (.literal (.boolean b), advanceT ts)
    | .null => .ok (.literal .null, advanceT ts)
    | .kwNew => pNewExpr (pExpression fuel) (fuel + 1) ts
    | .kwAwait => do
      let (v, ts) ← pExpression fuel ts
      .ok (.awaitExpr v, ts)
    | .quote => do
      let (parts, ts) ← quoteLoop (pExpression fuel) (fuel + 1) ts
      let ts ← consumeT ts .quote "Expected \x27\"\x27 after string"
      .ok (.stringInterp parts, ts)
    | .typeMapping => do
      let (entries, ts) ← entriesLoop (pExpression fuel) (fuel + 1) ts
      .ok (.mappingLit entries, ts)
    | .typeList => do
      let (et, ts) ← pTypeAnn (fuel + 1) (advanceT ts)
      let ts ← consumeT ts .closeBracket "Expected \x27]\x27 after type parameter"
      .ok (.listType et, ts)
    | .typePromise => do
      let (vt, ts) ← pTypeAnn (fuel + 1) (advanceT ts)
      let ts ← consumeT ts .closeBracket "Expected \x27]\x27 after type parameter"
      .ok (.promiseType vt, ts)
    | _ => .error "Expected expression"

/-- Parser::mapping_initializer. -/
def pMappingInit (fuel : Nat) (ts : List TokenType) :
    Except String (Node × List TokenType) := do
  let (entries, ts) ← entriesLoop (pExpression fuel) fuel ts
  .ok (.mappingLit entries, ts)

/-- Parser::declaration — the only statement production reachable from
Parser::parse. -/
def pDeclaration (fuel : Nat) (ts : List TokenType) :
    Except String (Node × List TokenType) :=
  match peekT ts with
  | .identifier name =>
    let ts := advanceT ts
    let mAs := matchT ts [.kwAs]
    if mAs.1 then do
      let (tyNode, ts) ← pTypeAnn fuel mAs.2
      match tyNode with
      | .mappingType _ _ => do
        let ts ← consumeT ts .includes "Expected \x27includes\x27 after mapping type"
        let (ini, ts) ← pMappingInit fuel ts
        .ok (.variableDecl name (some tyNode) (some ini), ts)
      | _ =>
        let mIs := matchT ts [.kwIs]
        if mIs.1 then do
          let (e, ts) ← pExpression fuel mIs.2
          .ok (.variableDecl name none (some e), ts)
        else
          .error "Expected \x27as\x27 or \x27is\x27 after identifier"
    else
      let mIs := matchT ts [.kwIs]
      if mIs.1 then do
        let (e, ts) ← pExpression fuel mIs.2
        .ok (.variableDecl name none (some e), ts)
      else
        .error "Expected \x27as\x27 or \x27is\x27 after identifier"
  | _ => .error "Expected identifier"

/-- Parser::parse — repeatedly parse declarations until the EOF token. -/
def pParse : Nat → List TokenType → Except String (List Node)
  | 0, _ => .error "out of fuel"
  | fuel + 1, ts =>
    if isAtEndT ts then .ok []
    else do
      let (n, ts) ← pDeclaration fuel ts
      let ns ← pParse fuel ts
      .ok (n :: ns)

/-- Bytecode instructions, from `OpCode` in src/generator.rs.  `ret` is Rust
`Return`, `showOp` is Rust `Show`. -/
inductive OpCode where
  | push (v : Value)
  | pop
  | duplicate
  | loadVar (name : String)
  | storeVar (name : String)
  | add
  | subtract
  | multiply
  | divide
  | jump (target : Nat)
  | jumpIfFalse (target : Nat)
  | call (name : String) (argCount : Nat)
  | ret
  | newObject (className : String)
  | getProperty (name : String)
  | setProperty (name : String)
  | checkType (typeName : String)
  | cast (typeName : String)
  | concat
  | interpolate (partCount : Nat)
  | checkAssignmentType
  | convertToString
  | showOp
deriving DecidableEq

/-- Generator state: the growing instruction list and the symbol table
(`BytecodeGenerator.variables`; only membership and insertion are used, so a
list of names suffices).  `constants`, `current_scope`, `loop_starts` and
`loop_ends` are never read or written by any reachable path and are
omitted. -/
structure GenState where
  instrs : List OpCode
  vars : List String
deriving DecidableEq

/-- BytecodeGenerator::emit. -/
def emit (st : GenState) (op : OpCode) : GenState :=
  { st with instrs := st.instrs ++ [op] }

/-- Patch the jump-if-false placeholder at `pos` (the
`if let OpCode::JumpIfFalse(ref mut addr)` in-place update: instructions of
any other shape are left untouched). -/
def patchJumpIfFalse (st : GenState) (pos addr : Nat) : GenState :=
  match st.instrs[pos]? with
  | some (.jumpIfFalse _) => { st with instrs := st.instrs.set pos (.jumpIfFalse addr) }
  | _ => st

/-- Patch the unconditional-jump placeholder at `pos`. -/
def patchJump (st : GenState) (pos addr : Nat) : GenState :=
  match st.instrs[pos]? with
  | some (.jump _) => { st with instrs := st.instrs.set pos (.jump addr) }
  | _ => st

/-- Sequential node generation, as in the loops of
BytecodeGenerator::generate and the `Block`/args cases; `g` is the
single-node generator at the enclosing fuel. -/
def genList (g : Node → GenState → Except String GenState) :
    List Node → GenState → Except String GenState
  | [], st => .ok st
  | n :: rest, st => do
    let st ← g n st
    genList g rest st

/-- BytecodeGenerator::generate_string_interpolation: emit each part (string
literals as pushes, variables as load plus to-string), and after every part
emit a Concat whenever the interpolation has more than one part in total. -/
def genInterp (g : Node → GenState → Except String GenState) (total : Nat) :
    List Node → GenState → Except String GenState
  | [], st => .ok st
  | p :: rest, st => do
    let st ←
      match p with
      | .literal (.string s) => .ok (emit st (.push (.string s)))
      | .var n => .ok (emit (emit st (.loadVar n)) .convertToString)
      | _ => g p st
    let st := if total > 1 then emit st .concat else st
    genInterp g total rest st

/-- BytecodeGenerator::generate_node.  Fuel bounds recursion into child
nodes; the Rust recursion is structural, so `depth of the node + 1` always
suffices. -/
def genNode : Nat → Node → GenState → Except String GenState
  | 0, _, _ => .error "out of fuel"
  | fuel + 1, node, st =>
    match node with
    | .variableDecl name tyAnn ini => do
      let st ←
        match ini with
        | some e => genNode fuel e st
        | none => .ok (emit st (.push .null))
      let st :=
        match tyAnn with
        | some (.typeAnn tn) => emit st (.checkType tn)
        | _ => st
      .ok (emit st (.storeVar name))
    | .assignment name value => do
      let st ← genNode fuel value st
      let st :=
        if name ∈ st.vars then emit (emit st (.loadVar name)) .checkAssignmentType
        else st
      let st := emit st (.storeVar name)
      let st :=
        if name ∈ st.vars then st
        else { st with vars := st.vars ++ [name] }
      .ok st
    | .binary l op r => do
      let st ← genNode fuel l st
      let st ← genNode fuel r st
      match op with
      | .plus => .ok (emit st .add)
      | .minus => .ok (emit st .subtract)
      | .multiply => .ok (emit st .multiply)
      | .divide => .ok (emit st .divide)
      | _ => .error "Unsupported binary operator"
    | .callE callee args => do
      let st ← genList (genNode fuel) args st
      match callee with
      | .var n => .ok (emit st (.call n args.length))
      | _ => .error "Only direct function calls are supported"
    | .showStmt e => do
      let st ← genNode fuel e st
      .ok (emit st .showOp)
    | .block stmts => genList (genNode fuel) stmts st
    | .whenStmt condition thenBranch elseBranch => do
      let st ← genNode fuel condition st
      let jifPos := st.instrs.length
      let st := emit st (.jumpIfFalse 0)
      let st ← genNode fuel thenBranch st
      match elseBranch with
      | some e =>
        let jumpPos := st.instrs.length
        let st := emit st (.jump 0)
        let elseStart := st.instrs.length
        let st := patchJumpIfFalse st jifPos elseStart
        let st ← genNode fuel e st
        let afterElse := st.instrs.length
        .ok (patchJump st jumpPos afterElse)
      | none =>
        let afterThen := st.instrs.length
        .ok (patchJumpIfFalse st jifPos afterThen)
    | .loopStmt condition body => do
      let loopStart := st.instrs.length
      let st ← genNode fuel condition st
      let jifPos := st.instrs.length
      let st := emit st (.jumpIfFalse 0)
      let st ← genNode fuel body st
      let st := emit st (.jump loopStart)
      let afterLoop := st.instrs.length
      .ok (patchJumpIfFalse st jifPos afterLoop)
    | .get object name => do
      let st ← genNode fuel object st
      .ok (emit st (.getProperty name))
    | .newE className args => do
      let st ← genList (genNode fuel) args st
      .ok (emit st (.newObject className))
    | .stringInterp parts => do
      let st ← genInterp (genNode fuel) parts.length parts st
      .ok (emit st (.interpolate parts.length))
    | .literal v => .ok (emit st (.push v))
    | .var name => .ok (emit st (.loadVar name))
    | _ => .error "Unsupported node type"

/-- BytecodeGenerator::generate — generate every top-level node from a fresh
state and return the instruction list. -/
def generate (fuel : Nat) (nodes : List Node) : Except String (List OpCode) :=
  (genList (genNode fuel) nodes { instrs := [], vars := [] }).map GenState.instrs

/-- Association-list lookup, modelling `HashMap::get`. -/
def aLookup {α : Type} : List (String × α) → String → Option α
  | [], _ => none
  | (k, v) :: rest, key => if k = key then some v else aLookup rest key

/-- Association-list insert-or-overwrite, modelling `HashMap::insert`. -/
def aInsert {α : Type} : List (String × α) → String → α → List (String × α)
  | [], key, v => [(key, v)]
  | (k, w) :: rest, key, v =>
    if k = key then (key, v) :: rest else (k, w) :: aInsert rest key v

/-- Virtual-machine state for Runtime::execute_bytecode: the operand stack
(head is the top), the global variable table and declared-type table of the
`Runtime` struct, the text printed by `show` so far, and the instruction
pointer. -/
structure VMState where
  stack : List Value
  vars : List (String × Value)
  varTypes : List (String × String)
  output : List String
  ip : Nat
deriving DecidableEq

/-- Result of one instruction: a next state, an error carrying the state at
the moment the Rust code returns `Err` (its locals at that point), or a
`done` for the `Return` opcode, which breaks the dispatch loop. -/
inductive StepRes where
  | ok (s : VMState)
  | err (msg : String) (s : VMState)
  | done (s : VMState)
deriving DecidableEq

/-- Runtime type classification used by StoreVar and CheckAssignmentType:
a Number with zero fractional part is "Whole", any other Number "Decimal";
fract() == 0.0 for an f64 is modelled as denominator 1 of the rational. -/
def classify : Value → String
  | .number n => if n.den = 1 then "Whole" else "Decimal"
  | .string _ => "Text"
  | .boolean _ => "Truth"
  | .null => "Void"
  | .object className => className

/-- Display form of a Value (`impl Display for Value`).  A whole Number
prints its integer part exactly as Rust prints the f64; the non-integer
branch is a nominal rendering, never observed by the claims. -/
def display : Value → String
  | .number n => if n.den = 1 then toString n.num else toString n
  | .string s => s
  | .boolean b => toString b
  | .null => "null"
  | .object className => "[object " ++ className ++ "]"

/-- Runtime::get_next_var_name — first StoreVar target in the remaining
instruction stream. -/
def getNextVarName : List OpCode → Option String
  | [] => none
  | .storeVar name :: _ => some name
  | _ :: rest => getNextVarName rest

/-- Pop loop of the Interpolate opcode: pop `n` times; each popped String is
prepended to the accumulator, any other popped value (or a pop from an empty
stack) is silently discarded. -/
def interpLoop : Nat → List Value → String → List Value × String
  | 0, st, acc => (st, acc)
  | k + 1, [], acc => interpLoop k [] acc
  | k + 1, v :: rest, acc =>
    match v with
    | .string p => interpLoop k rest (p ++ acc)
    | _ => interpLoop k rest acc

/-- Arithmetic opcode body: pop b then a, require Numbers, push the result
(`Runtime::binary_op`). -/
def arithStep (s : VMState) (f : ℚ → ℚ → ℚ) : StepRes :=
  match s.stack with
  | [] => .err "Stack underflow" s
  | b :: rest =>
    match rest with
    | [] => .err "Stack underflow" { s with stack := [] }
    | a :: rest2 =>
      match a, b with
      | .number x, .number y =>
        .ok { s with stack := .number (f x y) :: rest2, ip := s.ip + 1 }
      | _, _ => .err "Invalid operands for arithmetic operation" { s with stack := rest2 }

/-- One iteration of Runtime::execute_bytecode: execute the instruction at
the current instruction pointer.  Every arm ends with the shared `ip += 1`
of the Rust loop — including the Jump arms, which assign the target first
and are therefore resumed at target + 1.  `ConvertToString` and `Show` are
opcodes of the instruction set that the match in the Rust source does not
handle (the match is non-exhaustive); no execution in this development ever
reaches them. -/
def stepInstr (code : List OpCode) (s : VMState) : StepRes :=
  match code[s.ip]? with
  | none => .err "instruction pointer out of range" s
  | some op =>
    match op with
    | .storeVar name =>
      match s.stack with
      | [] => .err "Stack underflow" s
      | v :: rest =>
        match aLookup s.varTypes name with
        | some declaredType =>
          match v with
          | .null =>
            .ok { s with stack := rest, vars := aInsert s.vars name v, ip := s.ip + 1 }
          | _ =>
            if classify v = declaredType then
              .ok { s with stack := rest, vars := aInsert s.vars name v, ip := s.ip + 1 }
            else
              .err ("Type mismatch: cannot assign " ++ classify v ++
                    " to variable of type " ++ declaredType)
                { s with stack := rest }
        | none =>
          .ok { s with stack := rest, vars := aInsert s.vars name v, ip := s.ip + 1 }
    | .loadVar name =>
      match aLookup s.vars name with
      | some v => .ok { s with stack := v :: s.stack, ip := s.ip + 1 }
      | none => .err ("Undefined variable: " ++ name) s
    | .push v => .ok { s with stack := v :: s.stack, ip := s.ip + 1 }
    | .pop => .ok { s with stack := s.stack.tail, ip := s.ip + 1 }
    | .duplicate =>
      match s.stack with
      | v :: _ => .ok { s with stack := v :: s.stack, ip := s.ip + 1 }
      | [] => .ok { s with ip := s.ip + 1 }
    | .add => arithStep s (· + ·)
    | .subtract => arithStep s (· - ·)
    | .multiply => arithStep s (· * ·)
    | .divide => arithStep s (· / ·)
    | .jump target => .ok { s with ip := target + 1 }
    | .jumpIfFalse target =>
      match s.stack with
      | .boolean false :: _ => .ok { s with ip := target + 1 }
      | _ => .ok { s with ip := s.ip + 1 }
    | .call name argCount =>
      let args := (s.stack.take argCount).reverse
      let rest := s.stack.drop argCount
      if name = "show" then
        let out :=
          match args.head? with
          | some v => s.output ++ [display v]
          | none => s.output
        .ok { s with stack := .null :: rest, output := out, ip := s.ip + 1 }
      else
        .err ("Unknown function: " ++ name) { s with stack := rest }
    | .ret => .done s
    | .newObject _ => .err "Object creation not implemented yet" s
    | .getProperty _ => .err "Property access not implemented yet" s
    | .setProperty _ => .err "Property setting not implemented yet" s
    | .checkType typeName =>
      let vt :=
        match getNextVarName (code.drop (s.ip + 1)) with
        | some varName => aInsert s.varTypes varName typeName
        | none => s.varTypes
      .ok { s with varTypes := vt, ip := s.ip + 1 }
    | .cast typeName =>
      match s.stack with
      | [] => .ok { s with ip := s.ip + 1 }
      | v :: rest =>
        match v, typeName with
        | .number n, "Whole" =>
          .ok { s with stack := .number (⌊n⌋ : ℚ) :: rest, ip := s.ip + 1 }
        | .number n, "Decimal" =>
          .ok { s with stack := .number n :: rest, ip := s.ip + 1 }
        | .string str, "Text" =>
          .ok { s with stack := .string str :: rest, ip := s.ip + 1 }
        | .boolean b, "Truth" =>
          .ok { s with stack := .boolean b :: rest, ip := s.ip + 1 }
        | _, _ => .err "Cannot cast value to requested type" { s with stack := rest }
    | .concat =>
      match s.stack with
      | [] => .err "Stack underflow" s
      | b :: rest =>
        match rest with
        | [] => .err "Stack underflow" { s with stack := [] }
        | a :: rest2 =>
          match a, b with
          | .string s1, .string s2 =>
            .ok { s with stack := .string (s1 ++ s2) :: rest2, ip := s.ip + 1 }
          | _, _ => .err "Can only concatenate strings" { s with stack := rest2 }
    | .interpolate partCount =>
      let r := interpLoop partCount s.stack ""
      .ok { s with stack := .string r.2 :: r.1, ip := s.ip + 1 }
    | .checkAssignmentType =>
      match s.stack with
      | [] => .err "Stack underflow" s
      | _old :: rest =>
        match rest.head? with
        | none => .err "Stack underflow" { s with stack := rest }
        | some newValue =>
          match getNextVarName (code.drop (s.ip + 1)) with
          | some varName =>
            match aLookup s.varTypes varName with
            | some declaredType =>
              if classify newValue = declaredType then
                .ok { s with stack := rest, ip := s.ip + 1 }
              else
                .err ("Type mismatch: cannot assign " ++ classify newValue ++
                      " to variable of type " ++ declaredType)
                  { s with stack := rest }
            | none => .ok { s with stack := rest, ip := s.ip + 1 }
          | none => .ok { s with stack := rest, ip := s.ip + 1 }
    | .convertToString => .err "opcode not handled by the VM match" s
    | .showOp => .err "opcode not handled by the VM match" s

/-- Result of a full run: normal completion, a runtime error with the state
at the error, or fuel exhaustion (the Rust loop would still be running). -/
inductive ExecRes where
  | ok (s : VMState)
  | err (msg : String) (s : VMState)
  | fuelOut (s : VMState)
deriving DecidableEq

/-- The `while ip < bytecode.len()` dispatch loop of
Runtime::execute_bytecode, with explicit fuel. -/
def runFuel (code : List OpCode) : Nat → VMState → ExecRes
  | 0, s => .fuelOut s
  | fuel + 1, s =>
    if s.ip < code.length then
      match stepInstr code s with
      | .ok s' => runFuel code fuel s'
      | .err msg s' => .err msg s'
      | .done s' => .ok s'
    else
      .ok s

/-- Run exactly `n` successful steps (stopping early at completion, error or
Return); used to inspect intermediate states of non-terminating programs. -/
def stepN (code : List OpCode) : Nat → VMState → VMState
  | 0, s => s
  | n + 1, s =>
    if s.ip < code.length then
      match stepInstr code s with
      | .ok s' => stepN code n s'
      | _ => s
    else s

/-- Fresh single-shot state: empty stack, tables and output, ip 0. -/
def initState : VMState := ⟨[], [], [], [], 0⟩

/-- Fresh state with pre-bound variables (a session whose table already
holds earlier bindings). -/
def initWith (vars : List (String × Value)) : VMState := ⟨[], vars, [], [], 0⟩

/-- Token stream of the source unit `x as Whole is 2 + 3` followed by
`show x` (the intended lexing, with `Whole` as a type token; the shipped
tokenizer path would even lex `Whole` as a plain identifier, which fails
one token earlier). -/
def c1Tokens : List TokenType :=
  [.identifier "x", .kwAs, .typeWhole, .kwIs, .number 2, .plus, .number 3,
   .kwShow, .identifier "x", .eof]

/-- AST node for the interpolated string literal "a{x}b{y}c". -/
def c2Node : Node := stringLiteralNode "a{x}b{y}c"

/-- Bytecode the generator emits for `c2Node` (checked in the C2
counterexample theorem). -/
def c2Code : List OpCode :=
  [.push (.string "a"), .concat, .loadVar "x", .convertToString, .concat,
   .push (.string "b"), .concat, .loadVar "y", .convertToString, .concat,
   .push (.string "c"), .concat, .interpolate 5]

/-- Conditional with both branches and a false condition. -/
def whenFalseNode : Node :=
  .whenStmt (.literal (.boolean false)) (.literal (.number 1))
    (some (.literal (.number 2)))

/-- Conditional with both branches and a true condition. -/
def whenTrueNode : Node :=
  .whenStmt (.literal (.boolean true)) (.literal (.number 1))
    (some (.literal (.number 2)))

/-- Bytecode of `whenFalseNode` alone. -/
def c3Code : List OpCode :=
  [.push (.boolean false), .jumpIfFalse 4, .push (.number 1), .jump 5,
   .push (.number 2)]

/-- Bytecode of `whenTrueNode` followed by one post-conditional
instruction. -/
def c3JoinCode : List OpCode :=
  [.push (.boolean true), .jumpIfFalse 4, .push (.number 1), .jump 5,
   .push (.number 2), .push (.number 9)]

/-- While-loop with condition literal `true` and a one-instruction body. -/
def loopTrueNode : Node := .loopStmt (.literal (.boolean true)) (.literal (.number 1))

/-- While-loop with condition literal `false` and a one-instruction body. -/
def loopFalseNode : Node := .loopStmt (.literal (.boolean false)) (.literal (.number 1))

/-- Bytecode of `loopTrueNode`. -/
def c4Code : List OpCode :=
  [.push (.boolean true), .jumpIfFalse 4, .push (.number 1), .jump 0]

/-- Bytecode of `loopFalseNode`. -/
def c4FalseCode : List OpCode :=
  [.push (.boolean false), .jumpIfFalse 4, .push (.number 1), .jump 0]

/-- The rational 3/2, written with explicit numerator and denominator so its
denominator is kernel-computable; it models an f64 with nonzero fractional
part. -/
def threeHalves : ℚ := ⟨3, 2, by decide, by decide⟩

/-- Left-to-right concatenation of a list of strings. -/
def strConcat (l : List String) : String := l.foldr (· ++ ·) ""

/-- The Interpolate pop loop applied to a stack whose top section is the
strings `rs` (top first): it removes exactly that section and prepends each
string to the accumulator in pop order. -/
theorem interpLoop_strings (rs : List String) (rest : List Value) (acc : String) :
    interpLoop rs.length (rs.map Value.string ++ rest) acc
      = (rest, rs.foldl (fun a r => r ++ a) acc) := by
  induction rs generalizing acc with
  | nil => rfl
  | cons r t ih => simpa [interpLoop] using ih (r ++ acc)

/-- The Interpolate pop loop leaves an empty stack empty and the accumulator
untouched. -/
theorem interpLoop_nil (n : Nat) (acc : String) :
    interpLoop n [] acc = ([], acc) := by
  induction n with
  | zero => rfl
  | succ k ih => simpa [interpLoop] using ih

/-- Claim C1: the round trip `x as Whole is 2 + 3` then `show x` is claimed
to parse, compile, execute and print `5`.  In fact parsing already fails:
`Parser::expression` consumes only the literal `2` (the precedence ladder is
never invoked), leaving `+ 3` unconsumed, and the top-level parse loop only
accepts identifier-led declarations, so it stops with "Expected identifier";
nothing is compiled, executed or printed. -/
theorem C1_roundtrip_parse_fails :
    pDeclaration 20 c1Tokens
      = .ok (.variableDecl "x" none (some (.literal (.number 2))),
          [.plus, .number 3, .kwShow, .identifier "x", .eof])
    ∧ pParse 20 c1Tokens = .error "Expected identifier" :=
  ⟨rfl, rfl⟩

/-- Claim C6: the parser is claimed to accept `identifier as <type>` with an
optional `is <expr>` initializer, producing a node that carries the type
annotation.  In fact `Parser::declaration` rejects a typed declaration
without initializer, and when the initializer is present it discards the
parsed annotation (the node carries none); the untyped `identifier is
<expr>` shape and the two syntax-error cases behave as claimed. -/
theorem C6_typed_declaration_behavior :
    pDeclaration 20 [.identifier "x", .kwAs, .typeWhole, .eof]
      = .error "Expected \x27as\x27 or \x27is\x27 after identifier"
    ∧ pDeclaration 20 [.identifier "x", .kwAs, .typeWhole, .kwIs, .number 2, .eof]
      = .ok (.variableDecl "x" none (some (.literal (.number 2))), [.eof])
    ∧ pDeclaration 20 [.identifier "x", .kwIs, .number 2, .eof]
      = .ok (.variableDecl "x" none (some (.literal (.number 2))), [.eof])
    ∧ pDeclaration 20 [.identifier "x", .colon, .number 2, .eof]
      = .error "Expected \x27as\x27 or \x27is\x27 after identifier"
    ∧ pDeclaration 20 [.kwShow, .identifier "x", .eof] = .error "Expected identifier" :=
  ⟨rfl, rfl, rfl, rfl, rfl⟩

/-- Claim C3: a conditional with both branches is claimed to execute exactly
one branch and reach the single post-conditional index on either path.  In
fact the VM increments the instruction pointer again after every jump, so
with a false condition execution lands one past the start of the else
branch (here skipping the entire one-instruction else branch: the final
stack holds only the condition value), and with a true condition the jump
over the else branch lands one past the join (here skipping the
post-conditional `push 9`). -/
theorem C3_conditional_branch_skip :
    generate 10 [whenFalseNode] = .ok c3Code
    ∧ runFuel c3Code 30 initState = .ok ⟨[.boolean false], [], [], [], 5⟩
    ∧ generate 10 [whenTrueNode, .literal (.number 9)] = .ok c3JoinCode
    ∧ runFuel c3JoinCode 30 initState = .ok ⟨[.number 1, .boolean true], [], [], [], 6⟩ :=
  ⟨rfl, rfl, rfl, rfl⟩

/-- Claim C4: the loop condition is claimed to be fully evaluated before
every body execution.  In fact the jump back to `loop_start` resumes at
`loop_start + 1` (the post-jump increment), skipping the condition: after
four steps the instruction pointer is 1, past the condition push at index 0,
and after six steps the body has executed twice (two `1`s on the stack)
while the condition executed once (a single `true`).  The
false-on-entry half of the claim does hold: the body runs zero times. -/
theorem C4_loop_condition_skip :
    generate 10 [loopTrueNode] = .ok c4Code
    ∧ stepN c4Code 4 initState = ⟨[.number 1, .boolean true], [], [], [], 1⟩
    ∧ stepN c4Code 6 initState = ⟨[.number 1, .number 1, .boolean true], [], [], [], 3⟩
    ∧ generate 10 [loopFalseNode] = .ok c4FalseCode
    ∧ runFuel c4FalseCode 30 initState = .ok ⟨[.boolean false], [], [], [], 5⟩ :=
  ⟨rfl, rfl, rfl, rfl, rfl⟩

/-- Claim C2, counterexample: compiling and executing "a{x}b{y}c" with x = 1
and y = 2 is claimed to print `a1b2c`.  The parser does split the string
into the five parts in source order, but the generator emits a Concat after
every part, so execution underflows the stack at the first Concat and stops
with a runtime error having printed nothing (empty output in the error
state). -/
theorem C2_compiled_interpolation_underflow :
    c2Node = .stringInterp
      [.literal (.string "a"), .var "x", .literal (.string "b"), .var "y",
       .literal (.string "c")]
    ∧ generate 10 [c2Node] = .ok c2Code
    ∧ runFuel c2Code 30 (initWith [("x", .number 1), ("y", .number 2)])
      = .err "Stack underflow" ⟨[], [("x", .number 1), ("y", .number 2)], [], [], 1⟩ :=
  ⟨rfl, rfl, rfl⟩

/-- Claim C2, amended: at the instruction level, `interpolate(N)` pops N
values and pushes the concatenation of the popped String values in their
original left-to-right push order (the pop order is reversed by prepending
each popped part). -/
theorem C2_interpolate_preserves_order (code : List OpCode) (s : VMState)
    (ss : List String) (rest : List Value)
    (h : code[s.ip]? = some (.interpolate ss.length))
    (hst : s.stack = ss.reverse.map Value.string ++ rest) :
    stepInstr code s = .ok { s with stack := .string (strConcat ss) :: rest, ip := s.ip + 1 } := by
  have hloop := interpLoop_strings ss.reverse rest ""
  rw [List.length_reverse] at hloop
  simp only [stepInstr, h, hst, hloop]
  have hfold : ss.reverse.foldl (fun a r => r ++ a) "" = strConcat ss := by
    rw [List.foldl_reverse]
    rfl
  rw [hfold]

/-- Witness for C2: interpolate(2) on a stack holding "cd" above "ab"
(pushed "ab" first) yields "abcd". -/
theorem C2_interpolate_preserves_order_witness :
    (([OpCode.interpolate 2] : List OpCode)[(0 : Nat)]? = some (.interpolate 2))
    ∧ stepInstr [OpCode.interpolate 2] ⟨[.string "cd", .string "ab"], [], [], [], 0⟩
      = .ok ⟨[.string "abcd"], [], [], [], 1⟩ :=
  ⟨rfl, by exact C2_interpolate_preserves_order _ _ ["ab", "cd"] [] rfl rfl⟩

/-- Claim C5: store-variable(name) pops one value; with a recorded declared
type and a non-Null value, the runtime classification must equal the
declared type or execution fails with a type-mismatch error whose state
still has the old variable table (the binding is unchanged); a popped Null
always bypasses the check and is stored; without a recorded type the store
is unconditional; popping an empty stack is a stack-underflow error.  The
final conjunct records the classification table on representatives. -/
theorem C5_storeVar_semantics (code : List OpCode) (s : VMState) (name : String)
    (h : code[s.ip]? = some (.storeVar name)) :
    (s.stack = [] → stepInstr code s = .err "Stack underflow" s)
    ∧ (∀ v rest, s.stack = v :: rest → aLookup s.varTypes name = none →
        stepInstr code s
          = .ok { s with stack := rest, vars := aInsert s.vars name v, ip := s.ip + 1 })
    ∧ (∀ rest, s.stack = Value.null :: rest →
        stepInstr code s
          = .ok { s with stack := rest, vars := aInsert s.vars name .null, ip := s.ip + 1 })
    ∧ (∀ v rest dt, s.stack = v :: rest → aLookup s.varTypes name = some dt →
        v ≠ .null → classify v = dt →
        stepInstr code s
          = .ok { s with stack := rest, vars := aInsert s.vars name v, ip := s.ip + 1 })
    ∧ (∀ v rest dt, s.stack = v :: rest → aLookup s.varTypes name = some dt →
        v ≠ .null → classify v ≠ dt →
        stepInstr code s
          = .err ("Type mismatch: cannot assign " ++ classify v ++
              " to variable of type " ++ dt) { s with stack := rest })
    ∧ (classify (.number 5) = "Whole" ∧ classify (.number threeHalves) = "Decimal"
        ∧ classify (.string "hi") = "Text" ∧ classify (.boolean true) = "Truth"
        ∧ classify (.object "Person") = "Person") := by
  refine ⟨?_, ?_, ?_, ?_, ?_, by decide⟩
  · intro hst
    simp [stepInstr, h, hst]
  · intro v rest hst hlk
    simp [stepInstr, h, hst, hlk]
  · intro rest hst
    cases hlk : aLookup s.varTypes name <;> simp [stepInstr, h, hst, hlk]
  · intro v rest dt hst hlk hv hcl
    cases v <;> simp_all [stepInstr, h, hst, hlk]
  · intro v rest dt hst hlk hv hcl
    cases v <;> simp_all [stepInstr, h, hst, hlk]

/-- Witness for C5: storing 5 into a variable declared Whole succeeds and
replaces the binding; storing 3/2 fails with the type-mismatch error while
the variable table in the error state is unchanged. -/
theorem C5_storeVar_semantics_witness :
    (([OpCode.storeVar "x"] : List OpCode)[(0 : Nat)]? = some (.storeVar "x"))
    ∧ stepInstr [OpCode.storeVar "x"] ⟨[.number 5], [], [("x", "Whole")], [], 0⟩
      = .ok ⟨[], [("x", .number 5)], [("x", "Whole")], [], 1⟩
    ∧ stepInstr [OpCode.storeVar "x"] ⟨[.number threeHalves], [], [("x", "Whole")], [], 0⟩
      = .err "Type mismatch: cannot assign Decimal to variable of type Whole"
          ⟨[], [], [("x", "Whole")], [], 0⟩ := by
  refine ⟨rfl, ?_, ?_⟩
  · exact (C5_storeVar_semantics _ _ "x" rfl).2.2.2.1 (.number 5) [] "Whole" rfl rfl
      (by decide) (by decide)
  · exact (C5_storeVar_semantics _ _ "x" rfl).2.2.2.2.1 (.number threeHalves) [] "Whole"
      rfl rfl (by decide) (by decide)

/-- Claim C7: check-type(T) records T for the variable name of the nearest
following store-variable instruction, found by scanning forward from the
instruction after the current one; with no later store-variable nothing is
recorded; the operand stack is untouched and the instruction never fails.
The second and third conjuncts pin down the scan: it returns none exactly
when no store-variable follows, and the first store-variable otherwise. -/
theorem C7_checkType_semantics (code : List OpCode) (s : VMState) (t : String)
    (h : code[s.ip]? = some (.checkType t)) :
    stepInstr code s = .ok { s with
        varTypes :=
          match getNextVarName (code.drop (s.ip + 1)) with
          | some n => aInsert s.varTypes n t
          | none => s.varTypes,
        ip := s.ip + 1 }
    ∧ (∀ ops : List OpCode, (∀ op ∈ ops, ∀ n, op ≠ OpCode.storeVar n) →
        getNextVarName ops = none)
    ∧ (∀ (xs : List OpCode) (n : String) (ys : List OpCode),
        (∀ op ∈ xs, ∀ m, op ≠ OpCode.storeVar m) →
        getNextVarName (xs ++ OpCode.storeVar n :: ys) = some n) := by
  refine ⟨by simp [stepInstr, h], ?_, ?_⟩
  · intro ops hops
    induction ops with
    | nil => rfl
    | cons op rest ih =>
      cases op <;>
        first
        | exact absurd rfl (hops _ (List.mem_cons_self _ _) _)
        | simpa [getNextVarName] using
            ih fun o hm m => hops o (List.mem_cons_of_mem _ hm) m
  · intro xs n ys hxs
    induction xs with
    | nil => rfl
    | cons op rest ih =>
      cases op <;>
        first
        | exact absurd rfl (hxs _ (List.mem_cons_self _ _) _)
        | simpa [getNextVarName] using
            ih fun o hm m => hxs o (List.mem_cons_of_mem _ hm) m

/-- Witness for C7: check-type "Whole" followed by a store to y records
("y", "Whole") and leaves stack and ip+1; the scan finds the first store
after a non-store instruction. -/
theorem C7_checkType_semantics_witness :
    (([OpCode.checkType "Whole", OpCode.storeVar "y"] : List OpCode)[(0 : Nat)]?
      = some (.checkType "Whole"))
    ∧ stepInstr [OpCode.checkType "Whole", OpCode.storeVar "y"] initState
      = .ok ⟨[], [], [("y", "Whole")], [], 1⟩
    ∧ getNextVarName [OpCode.push .null, OpCode.storeVar "z"] = some "z"
    ∧ getNextVarName [OpCode.push .null, OpCode.pop] = none := by
  refine ⟨rfl, ?_, ?_, ?_⟩
  · exact (C7_checkType_semantics [OpCode.checkType "Whole", OpCode.storeVar "y"]
      initState "Whole" rfl).1
  · exact (C7_checkType_semantics [OpCode.checkType "Whole", OpCode.storeVar "y"]
      initState "Whole" rfl).2.2 [OpCode.push .null] "z" []
      (by rintro op hm m hc; simp only [List.mem_singleton] at hm; subst hm; cases hc)
  · exact (C7_checkType_semantics [OpCode.checkType "Whole", OpCode.storeVar "y"]
      initState "Whole" rfl).2.1 [OpCode.push .null, OpCode.pop]
      (by rintro op hm m hc
          rcases List.mem_cons.mp hm with h1 | h1
          · subst h1; cases hc
          · simp only [List.mem_singleton] at h1; subst h1; cases hc)

/-- Claim C8, counterexample: call("foo", 1) on a stack holding one value is
claimed to fail while leaving the stack exactly as before.  It does fail
with the unknown-function error, but the argument has already been popped:
the stack at the moment of the error is empty, not the original
one-element stack. -/
theorem C8_unknown_call_pops_args :
    stepInstr [OpCode.call "foo" 1] ⟨[.number 7], [], [], [], 0⟩
      = .err "Unknown function: foo" ⟨[], [], [], [], 0⟩
    ∧ ([] : List Value) ≠ [.number 7] :=
  ⟨rfl, by decide⟩

/-- Claim C8, amended: call(name, argc) first pops min(argc, stack size)
arguments; with any name other than "show" it then fails with the
unknown-function error, the stack at the error being the original minus the
popped arguments; call("show", 1) on a nonempty stack pops its one
argument, appends the display form of that value to the output, and pushes
Null as the result. -/
theorem C8_call_semantics :
    (∀ (code : List OpCode) (s : VMState) (name : String) (argc : Nat),
      code[s.ip]? = some (.call name argc) → name ≠ "show" →
      stepInstr code s
        = .err ("Unknown function: " ++ name) { s with stack := s.stack.drop argc })
    ∧ (∀ (code : List OpCode) (s : VMState) (v : Value) (rest : List Value),
      code[s.ip]? = some (.call "show" 1) → s.stack = v :: rest →
      stepInstr code s
        = .ok { s with stack := .null :: rest,
                       output := s.output ++ [display v], ip := s.ip + 1 }) := by
  constructor
  · intro code s name argc h hname
    simp [stepInstr, h, hname]
  · intro code s v rest h hst
    simp [stepInstr, h, hst]

/-- Witness for C8: an unknown call with two arguments errors and leaves
only the third stack element; show prints the display form of 5 and pushes
Null. -/
theorem C8_call_semantics_witness :
    (([OpCode.call "foo" 2] : List OpCode)[(0 : Nat)]? = some (.call "foo" 2))
    ∧ stepInstr [OpCode.call "foo" 2] ⟨[.number 7, .number 8, .number 9], [], [], [], 0⟩
      = .err "Unknown function: foo" ⟨[.number 9], [], [], [], 0⟩
    ∧ stepInstr [OpCode.call "show" 1] ⟨[.number 5], [], [], [], 0⟩
      = .ok ⟨[.null], [], [], ["5"], 1⟩ := by
  refine ⟨rfl, ?_, ?_⟩
  · exact C8_call_semantics.1 [OpCode.call "foo" 2]
      ⟨[.number 7, .number 8, .number 9], [], [], [], 0⟩ "foo" 2 rfl (by decide)
  · rw [C8_call_semantics.2 [OpCode.call "show" 1]
      ⟨[.number 5], [], [], [], 0⟩ (.number 5) [] rfl rfl]
    decide

/-- Claim C9, counterexample: the pop instruction on an empty stack is
claimed to fail with a runtime error; in fact the Rust code discards the
`Option` returned by `Vec::pop`, so execution completes normally. -/
theorem C9_pop_empty_no_error :
    runFuel [OpCode.pop] 5 initState = .ok ⟨[], [], [], [], 1⟩
    ∧ ∀ (msg : String) (st : VMState),
        runFuel [OpCode.pop] 5 initState ≠ .err msg st := by
  refine ⟨rfl, ?_⟩
  intro msg st hcontra
  rw [show runFuel [OpCode.pop] 5 initState = ExecRes.ok ⟨[], [], [], [], 1⟩ from rfl]
    at hcontra
  exact ExecRes.noConfusion hcontra

/-- Claim C9, amended: popping from an empty stack is a "Stack underflow"
runtime error for the arithmetic opcodes, store-variable, concatenate and
check-assignment-type; but the pop instruction, the call argument pops and
the interpolate part pops silently tolerate an empty stack and execution
proceeds (pop leaves the empty stack empty; interpolate pushes the empty
string; call("show", argc) prints nothing and pushes Null). -/
theorem C9_underflow_behavior :
    (∀ (code : List OpCode) (s : VMState), code[s.ip]? = some .add → s.stack = [] →
      stepInstr code s = .err "Stack underflow" s)
    ∧ (∀ (code : List OpCode) (s : VMState), code[s.ip]? = some .subtract → s.stack = [] →
      stepInstr code s = .err "Stack underflow" s)
    ∧ (∀ (code : List OpCode) (s : VMState), code[s.ip]? = some .multiply → s.stack = [] →
      stepInstr code s = .err "Stack underflow" s)
    ∧ (∀ (code : List OpCode) (s : VMState), code[s.ip]? = some .divide → s.stack = [] →
      stepInstr code s = .err "Stack underflow" s)
    ∧ (∀ (code : List OpCode) (s : VMState) (name : String),
      code[s.ip]? = some (.storeVar name) → s.stack = [] →
      stepInstr code s = .err "Stack underflow" s)
    ∧ (∀ (code : List OpCode) (s : VMState), code[s.ip]? = some .concat → s.stack = [] →
      stepInstr code s = .err "Stack underflow" s)
    ∧ (∀ (code : List OpCode) (s : VMState),
      code[s.ip]? = some .checkAssignmentType → s.stack = [] →
      stepInstr code s = .err "Stack underflow" s)
    ∧ (∀ (code : List OpCode) (s : VMState), code[s.ip]? = some .pop →
      stepInstr code s = .ok { s with stack := s.stack.tail, ip := s.ip + 1 })
    ∧ (∀ (code : List OpCode) (s : VMState) (n : Nat),
      code[s.ip]? = some (.interpolate n) → s.stack = [] →
      stepInstr code s = .ok { s with stack := [.string ""], ip := s.ip + 1 })
    ∧ (∀ (code : List OpCode) (s : VMState) (n : Nat),
      code[s.ip]? = some (.call "show" n) → s.stack = [] →
      stepInstr code s = .ok { s with stack := [.null], ip := s.ip + 1 }) := by
  refine ⟨?_, ?_, ?_, ?_, ?_, ?_, ?_, ?_, ?_, ?_⟩
  · intro code s h hst; simp [stepInstr, arithStep, h, hst]
  · intro code s h hst; simp [stepInstr, arithStep, h, hst]
  · intro code s h hst; simp [stepInstr, arithStep, h, hst]
  · intro code s h hst; simp [stepInstr, arithStep, h, hst]
  · intro code s name h hst; simp [stepInstr, h, hst]
  · intro code s h hst; simp [stepInstr, h, hst]
  · intro code s h hst; simp [stepInstr, h, hst]
  · intro code s h; simp [stepInstr, h]
  · intro code s n h hst; simp [stepInstr, h, hst, interpLoop_nil]
  · intro code s n h hst; simp [stepInstr, h, hst]

/-- Witness for C9, amended: add on an empty stack errors; pop on an empty
stack completes; interpolate(3) on an empty stack pushes the empty
string. -/
theorem C9_underflow_behavior_witness :
    stepInstr [OpCode.add] initState = .err "Stack underflow" initState
    ∧ stepInstr [OpCode.pop] initState = .ok ⟨[], [], [], [], 1⟩
    ∧ stepInstr [OpCode.interpolate 3] initState = .ok ⟨[.string ""], [], [], [], 1⟩ := by
  refine ⟨?_, ?_, ?_⟩
  · exact C9_underflow_behavior.1 [OpCode.add] initState rfl rfl
  · exact C9_underflow_behavior.2.2.2.2.2.2.2.1 [OpCode.pop] initState rfl
  · exact C9_underflow_behavior.2.2.2.2.2.2.2.2.1 [OpCode.interpolate 3] initState 3 rfl rfl

/-- Claim C10: jump-if-false only inspects the top of the stack; the operand
stack (and both variable tables and the output) are exactly those of the
state before the instruction, whether or not the branch is taken, so every
compiled conditional and loop leaves its condition value on the stack.  The
instruction pointer becomes the jump target plus one when the top is the
Boolean false, and the next instruction otherwise. -/
theorem C10_jumpIfFalse_stack_unchanged (code : List OpCode) (s : VMState) (t : Nat)
    (h : code[s.ip]? = some (.jumpIfFalse t)) :
    stepInstr code s
      = .ok { s with ip := if s.stack.head? = some (.boolean false) then t + 1 else s.ip + 1 } := by
  simp only [stepInstr, h]
  rcases hst : s.stack with _ | ⟨v, rest⟩
  · simp
  · cases v with
    | boolean b => cases b <;> simp
    | _ => simp

/-- Witness for C10: with false on top the branch is taken (ip becomes the
target plus one) and with true on top it is not; in both cases the stack is
exactly the one before the instruction. -/
theorem C10_jumpIfFalse_stack_unchanged_witness :
    (([OpCode.jumpIfFalse 7] : List OpCode)[(0 : Nat)]? = some (.jumpIfFalse 7))
    ∧ stepInstr [OpCode.jumpIfFalse 7] ⟨[.boolean false], [], [], [], 0⟩
      = .ok ⟨[.boolean false], [], [], [], 8⟩
    ∧ stepInstr [OpCode.jumpIfFalse 7] ⟨[.boolean true], [], [], [], 0⟩
      = .ok ⟨[.boolean true], [], [], [], 1⟩ := by
  refine ⟨rfl, ?_, ?_⟩
  · rw [C10_jumpIfFalse_stack_unchanged [OpCode.jumpIfFalse 7]
      ⟨[.boolean false], [], [], [], 0⟩ 7 rfl]
    decide
  · rw [C10_jumpIfFalse_stack_unchanged [OpCode.jumpIfFalse 7]
      ⟨[.boolean true], [], [], [], 0⟩ 7 rfl]
    decide
